import Mathlib

/-!
Verification of the client-side quiz state machine in
`src/app/(preview)/page.tsx` of the PDF-Quiz-Generator repository.

The component's local state (`files`, `questions`, `isDragging`, `title`,
plus the stream hook's `partialQuestions` / `isLoading`) is embedded as a
structure, and each event handler (`handleFileChange`, `onError`,
`onFinish`, `clearPDF`, title resolution, submit) as a transition of a
`step` function that also returns the list of toast messages raised.
JavaScript truthiness on the streamed draft fields is modelled explicitly.
-/

namespace PDFQuiz

/-- A member of the `File[]` selection handed to `handleFileChange`:
only `name`, `type` and `size` are inspected by the component. -/
structure FileItem where
  name : String
  type : String
  size : Nat
deriving DecidableEq, Repr

/-- A streamed question draft: during streaming any field may be absent
(`undefined`), matching the `Partial` object shape of the stream hook. -/
structure QuestionDraft where
  question : Option String
  options : Option (List String)
  answer : Option String
deriving DecidableEq, Repr

/-- JS truthiness of a possibly-absent string: `undefined` and `""` are
falsy, every other string truthy. -/
def truthyStr : Option String → Bool
  | none => false
  | some s => !(s == "")

/-- JS truthiness of a possibly-absent array: `undefined` is falsy, any
array (even empty) truthy. -/
def truthyArr : Option (List String) → Bool
  | none => false
  | some _ => true

/-- The per-element check of `onFinish` (page.tsx:133):
`q && q.question && q.options && q.answer`. An absent slot is falsy; a
present draft passes iff all three fields are truthy. -/
def draftTruthy : Option QuestionDraft → Bool
  | none => false
  | some d => truthyStr d.question && truthyArr d.options && truthyStr d.answer

/-- `onFinish` body (page.tsx:132-135):
`object?.filter((q) => q && q.question && q.options && q.answer) ?? []`. -/
def validatedQuestions (object : Option (List (Option QuestionDraft))) :
    List (Option QuestionDraft) :=
  match object with
  | none => []
  | some l => l.filter draftTruthy

/-- The acceptance predicate of `handleFileChange` (page.tsx:43-45):
`file.type === "application/pdf" && file.size <= 5 * 1024 * 1024`. -/
def isValidFile (f : FileItem) : Bool :=
  f.type == "application/pdf" && f.size ≤ 5 * 1024 * 1024

/-- The component state: `files`, `questions`, `isDragging`, `title`
(page.tsx:119-122) together with the stream hook's exposed
`partialQuestions` object and `isLoading` flag (page.tsx:124). -/
structure AppState where
  files : List FileItem
  questions : List (Option QuestionDraft)
  isDragging : Bool
  title : Option String
  partialQuestions : Option (List (Option QuestionDraft))
  isLoading : Bool
deriving DecidableEq, Repr

/-- The initial `useState` values: empty file list, empty question list,
not dragging, no title, stream object `undefined`, not loading. -/
def initialState : AppState :=
  { files := []
    questions := []
    isDragging := false
    title := none
    partialQuestions := none
    isLoading := false }

/-- Events the component reacts to. `select` carries the browser's
`isSafari` result and the raw selection (picker or drop both funnel into
`handleFileChange`); `emit` is an incremental stream update; `finish` and
`error` are the stream's terminal callbacks; `clear` is the quiz view's
`clearPDF`; `titleResolved` is the side-channel title request resolving;
`submit` starts the stream; `dragOver` / `dragLeave` toggle the flag. -/
inductive Event where
  | select (isSafari : Bool) (sel : List FileItem)
  | dragOver
  | dragLeave
  | submit
  | emit (l : List (Option QuestionDraft))
  | finish (object : Option (List (Option QuestionDraft)))
  | error
  | clear
  | titleResolved (t : String)
deriving DecidableEq, Repr

/-- Toast raised by the Safari drag guard (page.tsx:38). -/
def safariToast : String :=
  "Safari does not support drag & drop. Please use the file picker."

/-- Toast raised when some selected file is rejected (page.tsx:48). -/
def invalidFileToast : String := "Only PDF files under 5MB are allowed."

/-- Toast raised by `onError` (page.tsx:129). -/
def errorToast : String := "Failed to generate quiz. Please try again."

/-- One event-handler invocation: the new state and the toasts raised.
Each branch transcribes the corresponding handler in page.tsx. -/
def step (s : AppState) (e : Event) : AppState × List String :=
  match e with
  | .select isSafari sel =>
    -- handleFileChange (page.tsx:34-52); `isDragging` is read from state.
    if isSafari && s.isDragging then
      (s, [safariToast])
    else
      let validFiles := sel.filter isValidFile
      ({ s with files := validFiles },
        if validFiles.length != sel.length then [invalidFileToast] else [])
  | .dragOver => ({ s with isDragging := true }, [])
  | .dragLeave => ({ s with isDragging := false }, [])
  | .submit =>
    -- handleSubmitWithFiles triggers the hook's submit: the stream starts,
    -- the partial object resets and isLoading becomes true.
    ({ s with partialQuestions := none, isLoading := true }, [])
  | .emit l => ({ s with partialQuestions := some l }, [])
  | .finish object =>
    -- onFinish (page.tsx:132-135); the hook also ends the loading state.
    ({ s with questions := validatedQuestions object, isLoading := false }, [])
  | .error =>
    -- onError (page.tsx:128-131): toast and setFiles([]).
    ({ s with files := [], isLoading := false }, [errorToast])
  | .clear =>
    -- clearPDF (page.tsx:161-164): setFiles([]) and setQuestions([]).
    ({ s with files := [], questions := [] }, [])
  | .titleResolved t => ({ s with title := some t }, [])

/-- Replay a list of events from a state, accumulating all toasts. -/
def run (s : AppState) (es : List Event) : AppState × List String :=
  es.foldl (fun p e => let r := step p.1 e; (r.1, p.2 ++ r.2)) (s, [])

/-- The rendered view: quiz view with displayed title and questions, or the
upload/progress view. -/
inductive View where
  | quiz (title : String) (questions : List (Option QuestionDraft))
  | upload
deriving DecidableEq, Repr

/-- The render decision (page.tsx:168-170): the quiz view renders exactly
when `questions.length === 4`, with title `title ?? "Quiz"`; otherwise the
upload/progress view renders. -/
def render (s : AppState) : View :=
  if s.questions.length == 4 then .quiz (s.title.getD "Quiz") s.questions
  else .upload

/-- Whether the completed-quiz view is the rendered view. -/
def renderQuiz (s : AppState) : Bool :=
  match render s with
  | .quiz _ _ => true
  | .upload => false

/-- The submit button's disabled condition (page.tsx:213):
`files.length === 0`. -/
def submitDisabled (s : AppState) : Bool := s.files.length == 0

/-- `validQuestions` of `LoadingProgress` (page.tsx:87):
`partialQuestions?.filter(Boolean)` — drops falsy (absent) slots, keeps
every present draft object. -/
def validQuestions (p : Option (List (Option QuestionDraft))) :
    Option (List (Option QuestionDraft)) :=
  Option.map (fun l => l.filter (fun q => q.isSome)) p

/-- The status line of `LoadingProgress` (page.tsx:107-109): an array is
always truthy, so the ternary falls to "Analyzing PDF content" exactly when
`partialQuestions` is `undefined`. -/
def loadingLabel (p : Option (List (Option QuestionDraft))) : String :=
  match validQuestions p with
  | some l =>
    let n := l.length
    s!"Generating question {n + 1} of 4"
  | none => "Analyzing PDF content"

/-- The progress percentage (page.tsx:166):
`partialQuestions ? (partialQuestions.length / 4) * 100 : 0`, computed in
exact arithmetic (the JS float computation is exact on these values). -/
def progressOf (p : Option (List (Option QuestionDraft))) : ℚ :=
  match p with
  | some l => ((l.length : ℚ) / 4) * 100
  | none => 0

/-- The Progress Projector contract of spec §4.4: percentage and label
derived from the partial draft sequence. -/
def project (p : Option (List (Option QuestionDraft))) : ℚ × String :=
  (progressOf p, loadingLabel p)

/-- An encoded file as built by `handleSubmitWithFiles` (page.tsx:150-154);
`data` is the base64 data URL produced by the external `FileReader`. -/
structure EncodedFile where
  name : String
  type : String
  data : String
deriving DecidableEq, Repr

/-- The encoding map of `handleSubmitWithFiles` (page.tsx:149-155): the
external `FileReader` read is abstracted by `enc`, the rest is the
name/type/data record construction, in order. -/
def encodeFiles (enc : FileItem → String) (files : List FileItem) :
    List EncodedFile :=
  files.map (fun f => { name := f.name, type := f.type, data := enc f })

/-- Which events the UI can deliver in state `s`: the dropzone, form and
submit button exist only on the upload view; the submit button is also
disabled with no staged files; stream callbacks fire only while a stream
is active; `clearPDF` is only offered by the quiz view; the title request
may resolve at any time. -/
def enabled (s : AppState) (e : Event) : Bool :=
  match e with
  | .select _ _ => !(renderQuiz s)
  | .dragOver => !(renderQuiz s)
  | .dragLeave => !(renderQuiz s)
  | .submit => !(renderQuiz s) && !(submitDisabled s)
  | .emit _ => s.isLoading
  | .finish _ => s.isLoading
  | .error => s.isLoading
  | .clear => renderQuiz s
  | .titleResolved _ => true

/-- States reachable from the initial state through enabled events. -/
inductive Reachable : AppState → Prop where
  | init : Reachable initialState
  | next : ∀ s e, Reachable s → enabled s e = true → Reachable (step s e).1

/-- Whether every event of a list is enabled when replayed in order. -/
def enabledAll (s : AppState) : List Event → Bool
  | [] => true
  | e :: es => enabled s e && enabledAll (step s e).1 es

/-! ### Concrete sample data used by witnesses and counterexamples. -/

/-- A fully-populated streamed draft. -/
def sampleDraft : QuestionDraft :=
  { question := some "What is verified?"
    options := some ["a", "b", "c", "d"]
    answer := some "A" }

/-- A draft whose fields are all still absent. -/
def emptyDraft : QuestionDraft := { question := none, options := none, answer := none }

/-- A valid staged file: a small PDF. -/
def pdfFile : FileItem := { name := "doc.pdf", type := "application/pdf", size := 1000 }

/-- An invalid candidate: a 1000-byte PNG. -/
def pngFile : FileItem := { name := "img.png", type := "image/png", size := 1000 }

/-- A full happy-path session: stage a PDF, submit, stream four full
drafts, finish, and have the title request resolve. -/
def completedEvents : List Event :=
  [Event.select false [pdfFile], Event.submit,
    Event.emit (List.replicate 4 (some sampleDraft)),
    Event.finish (some (List.replicate 4 (some sampleDraft))),
    Event.titleResolved "My Quiz"]

/-- The state at the end of the happy-path session: quiz view shown. -/
def completedState : AppState := (run initialState completedEvents).1

/-! ### Helper lemmas -/

/-- Folding `run`'s accumulator out: replaying from any toast accumulator
appends the replay's toasts to it. -/
theorem run_acc (es : List Event) : ∀ (s : AppState) (acc : List String),
    es.foldl (fun p e => let r := step p.1 e; (r.1, p.2 ++ r.2)) (s, acc) =
      ((run s es).1, acc ++ (run s es).2) := by
  induction es with
  | nil => intro s acc; simp [run]
  | cons e es ih =>
    intro s acc
    simp only [run, List.foldl_cons]
    rw [ih (step s e).1 (acc ++ (step s e).2), ih (step s e).1 ([] ++ (step s e).2)]
    simp [List.append_assoc]

/-- `run` over a cons: one step, then the rest, toasts concatenated. -/
theorem run_cons (s : AppState) (e : Event) (es : List Event) :
    run s (e :: es) =
      ((run (step s e).1 es).1, (step s e).2 ++ (run (step s e).1 es).2) := by
  simp only [run, List.foldl_cons]
  rw [run_acc es (step s e).1 ([] ++ (step s e).2)]
  simp [run]

/-- A state reached by replaying a list of enabled events from a reachable
state is reachable. -/
theorem reachable_run (es : List Event) : ∀ (s : AppState), Reachable s →
    enabledAll s es = true → Reachable (run s es).1 := by
  induction es with
  | nil => intro s hs _; exact hs
  | cons e es ih =>
    intro s hs h
    rw [run_cons]
    have h' := h
    simp only [enabledAll, Bool.and_eq_true] at h'
    exact ih (step s e).1 (Reachable.next s e hs h'.1) h'.2

/-! ### Claim theorems -/

/-- C2: the progress projection maps `undefined` to pct 0 with label
"Analyzing PDF content"; for every defined partial draft sequence the label
is "Generating question {count of truthy slots + 1} of 4", where falsy
(absent) slots are dropped; in particular a single fully-populated draft
yields label "Generating question 2 of 4" and pct 25. -/
theorem project_progress_and_label :
    project none = (0, "Analyzing PDF content") ∧
    (∀ l, loadingLabel (some l) =
      "Generating question " ++
        toString ((l.filter (fun q => q.isSome)).length + 1) ++ " of 4") ∧
    (∀ d : QuestionDraft,
      (d.question.isSome && d.options.isSome && d.answer.isSome) = true →
      project (some [some d]) = (25, "Generating question 2 of 4")) := by
  refine ⟨rfl, fun l => rfl, fun d _ => ?_⟩
  have h1 : progressOf (some [some d]) = 25 := by
    simp [progressOf]
    norm_num
  have h2 : loadingLabel (some [some d]) = "Generating question 2 of 4" := by
    simp [loadingLabel, validQuestions]; rfl
  simp [project, h1, h2]

/-- C2 witness: the samples at the concrete fully-populated draft. -/
theorem project_progress_and_label_witness :
    project (some [some sampleDraft]) = (25, "Generating question 2 of 4") :=
  project_progress_and_label.2.2 sampleDraft (by decide)

/-- C3: the progress percentage is 0 for the undefined sequence and exactly
`25 * n` for a defined sequence of `n` received slots (i.e. `(n / 4) * 100`
as written in the source), and it is monotone along extensions: if one
emission is a prefix of another, its percentage is at most the other's. -/
theorem progress_exact_and_monotone :
    progressOf none = 0 ∧
    (∀ l : List (Option QuestionDraft), progressOf (some l) = 25 * l.length) ∧
    (∀ l1 l2 : List (Option QuestionDraft), l1 <+: l2 →
      progressOf (some l1) ≤ progressOf (some l2)) := by
  refine ⟨rfl, fun l => ?_, fun l1 l2 h => ?_⟩
  · show ((l.length : ℚ) / 4) * 100 = 25 * l.length
    ring
  · show ((l1.length : ℚ) / 4) * 100 ≤ ((l2.length : ℚ) / 4) * 100
    have hle : (l1.length : ℚ) ≤ l2.length := by exact_mod_cast h.length_le
    gcongr

/-- C3 witness: a one-draft emission extended by a further (still absent)
slot does not decrease the percentage. -/
theorem progress_exact_and_monotone_witness :
    progressOf (some [some sampleDraft]) ≤
      progressOf (some [some sampleDraft, none]) :=
  progress_exact_and_monotone.2.2 [some sampleDraft] [some sampleDraft, none]
    ⟨[none], rfl⟩

/-- The render decision as a boolean equation: the quiz view is rendered
exactly when the questions state has length 4. -/
theorem renderQuiz_eq (s : AppState) :
    renderQuiz s = (s.questions.length == 4) := by
  by_cases h : s.questions.length = 4 <;> simp [renderQuiz, render, h]

/-- C5: when the stream finishes, the stored question set is exactly the
streamed elements whose `question`, `options` and `answer` fields are all
present and truthy; every element failing the full-field check is dropped,
and the finish handler raises no toast. -/
theorem onFinish_full_field_filter (s : AppState)
    (object : Option (List (Option QuestionDraft))) :
    (step s (.finish object)).1.questions = (object.getD []).filter draftTruthy ∧
    (∀ q ∈ (step s (.finish object)).1.questions, draftTruthy q = true) ∧
    (∀ l, object = some l → ∀ q ∈ l, draftTruthy q = false →
      q ∉ (step s (.finish object)).1.questions) ∧
    (step s (.finish object)).2 = [] := by
  refine ⟨?_, ?_, ?_, rfl⟩
  · cases object <;> simp [step, validatedQuestions]
  · intro q hq
    cases object with
    | none => simp [step, validatedQuestions] at hq
    | some l =>
      simp only [step, validatedQuestions, List.mem_filter] at hq
      exact hq.2
  · intro l hl q hql hq hmem
    subst hl
    simp only [step, validatedQuestions, List.mem_filter] at hmem
    rw [hmem.2] at hq
    exact Bool.noConfusion hq

/-- C5 witness: a finished stream carrying one full draft and one empty
draft keeps the full draft and silently drops the empty one. -/
theorem onFinish_full_field_filter_witness :
    (some emptyDraft) ∉
      (step initialState (.finish (some [some sampleDraft, some emptyDraft]))).1.questions :=
  (onFinish_full_field_filter initialState
      (some [some sampleDraft, some emptyDraft])).2.2.1
    [some sampleDraft, some emptyDraft] rfl (some emptyDraft)
    (by decide) (by decide)

/-- C1 counterexample: a finished stream that delivered two fully-truthy
drafts leaves the validated question state with length 2 — neither 0 nor 4,
refuting "the questions state always holds 0 or 4 elements after onFinish". -/
theorem onFinish_length_two_counterexample :
    ((step initialState
        (.finish (some [some sampleDraft, some sampleDraft]))).1.questions).length = 2 ∧
    ¬(((step initialState
        (.finish (some [some sampleDraft, some sampleDraft]))).1.questions).length = 0 ∨
      ((step initialState
        (.finish (some [some sampleDraft, some sampleDraft]))).1.questions).length = 4) := by
  decide

/-- C1 amended: after onFinish the questions state is exactly the finished
stream filtered by the full-field check — its length is bounded by the
stream's length but is not forced to 0 or 4 — and the completed-quiz view
renders afterwards exactly when that filtered length is 4. -/
theorem onFinish_terminal_questions (s : AppState)
    (object : Option (List (Option QuestionDraft))) :
    (step s (.finish object)).1.questions = (object.getD []).filter draftTruthy ∧
    ((step s (.finish object)).1.questions).length ≤ (object.getD []).length ∧
    renderQuiz (step s (.finish object)).1 =
      (((object.getD []).filter draftTruthy).length == 4) := by
  have hq : (step s (.finish object)).1.questions =
      (object.getD []).filter draftTruthy := by
    cases object <;> simp [step, validatedQuestions]
  refine ⟨hq, ?_, ?_⟩
  · rw [hq]; exact List.length_filter_le _ _
  · rw [renderQuiz_eq, hq]

/-- C4: for every selection handled outside the Safari-drag guard, the new
staged set is exactly the selection filtered by the acceptance predicate:
every staged file is a PDF of at most 5 MiB, every violating file is
excluded, and the rejection warning is raised exactly when at least one
file was excluded. -/
theorem handleFileChange_filters (s : AppState) (isSafari : Bool)
    (sel : List FileItem) (hguard : (isSafari && s.isDragging) = false) :
    (step s (.select isSafari sel)).1.files = sel.filter isValidFile ∧
    (∀ f ∈ (step s (.select isSafari sel)).1.files,
      f.type = "application/pdf" ∧ f.size ≤ 5 * 1024 * 1024) ∧
    (∀ f ∈ sel, isValidFile f = false →
      f ∉ (step s (.select isSafari sel)).1.files) ∧
    ((∃ f ∈ sel, isValidFile f = false) ↔
      invalidFileToast ∈ (step s (.select isSafari sel)).2) := by
  have hstep : step s (.select isSafari sel) =
      ({ s with files := sel.filter isValidFile },
        if (sel.filter isValidFile).length != sel.length then [invalidFileToast]
        else []) := by
    simp [step, hguard]
  rw [hstep]
  refine ⟨rfl, ?_, ?_, ?_⟩
  · intro f hf
    have hv := (List.mem_filter.mp hf).2
    simp only [isValidFile, Bool.and_eq_true, beq_iff_eq, decide_eq_true_eq] at hv
    exact hv
  · intro f _ hvf hmem
    have hv := (List.mem_filter.mp hmem).2
    rw [hvf] at hv
    exact Bool.noConfusion hv
  · by_cases hc : (sel.filter isValidFile).length = sel.length
    · have hall := List.filter_length_eq_length.mp hc
      simp [hc]
      intro f hf
      exact hall f hf
    · have hbne : ((sel.filter isValidFile).length != sel.length) = true := by
        simp [bne_iff_ne, hc]
      have hnall : ¬ ∀ a ∈ sel, isValidFile a = true :=
        fun hall => hc (List.filter_length_eq_length.mpr hall)
      push_neg at hnall
      obtain ⟨f, hf, hvf⟩ := hnall
      simp [hbne]
      exact ⟨f, hf, by simpa using hvf⟩

/-- C4 witness: a 1000-byte PNG among a selection with a valid PDF is
excluded, the warning is raised, and the PDF still proceeds. -/
theorem handleFileChange_filters_witness :
    pngFile ∉ (step initialState (.select false [pdfFile, pngFile])).1.files ∧
    invalidFileToast ∈ (step initialState (.select false [pdfFile, pngFile])).2 ∧
    pdfFile ∈ (step initialState (.select false [pdfFile, pngFile])).1.files := by
  have h := handleFileChange_filters initialState false [pdfFile, pngFile]
    (by decide)
  exact ⟨h.2.2.1 pngFile (by decide) (by decide),
    h.2.2.2.mp ⟨pngFile, by decide, by decide⟩, by decide⟩

/-- C6: however many drafts were emitted, a stream error raises the error
toast, clears the staged files, leaves the validated question state
untouched, and keeps the quiz view unrendered (upload state, re-submittable). -/
theorem onError_resets_upload (s : AppState)
    (emits : List (List (Option QuestionDraft)))
    (hq : s.questions.length ≠ 4) :
    (run s (emits.map Event.emit ++ [Event.error])).1.files = [] ∧
    errorToast ∈ (run s (emits.map Event.emit ++ [Event.error])).2 ∧
    (run s (emits.map Event.emit ++ [Event.error])).1.questions = s.questions ∧
    renderQuiz (run s (emits.map Event.emit ++ [Event.error])).1 = false := by
  induction emits generalizing s with
  | nil =>
    simp only [List.map_nil, List.nil_append]
    rw [run_cons]
    refine ⟨rfl, by simp [run, step], rfl, ?_⟩
    rw [renderQuiz_eq]
    simp [run, step, hq]
  | cons l ls ih =>
    simp only [List.map_cons, List.cons_append]
    rw [run_cons]
    have ih' := ih (step s (.emit l)).1 hq
    exact ⟨ih'.1, List.mem_append.mpr (Or.inr ih'.2.1), ih'.2.2.1, ih'.2.2.2⟩

/-- C6 witness: a stream erroring after two partial emissions, from a state
with one staged file, ends with empty files, the error toast, and no quiz. -/
theorem onError_resets_upload_witness :
    (run { initialState with files := [pdfFile], isLoading := true }
        ([[some sampleDraft], [some sampleDraft, some sampleDraft]].map Event.emit ++
          [Event.error])).1.files = [] ∧
    renderQuiz (run { initialState with files := [pdfFile], isLoading := true }
        ([[some sampleDraft], [some sampleDraft, some sampleDraft]].map Event.emit ++
          [Event.error])).1 = false := by
  have h := onError_resets_upload { initialState with files := [pdfFile], isLoading := true }
    [[some sampleDraft], [some sampleDraft, some sampleDraft]] (by decide)
  exact ⟨h.1, h.2.2.2⟩

/-- C7: the quiz view is rendered iff the locally-held validated question
state has length exactly 4, the upload view otherwise; the decision is
independent of the stream's own loading/partial signals. -/
theorem quiz_view_iff_four (s : AppState) :
    (render s = View.quiz (s.title.getD "Quiz") s.questions ↔
      s.questions.length = 4) ∧
    (s.questions.length ≠ 4 → render s = View.upload) ∧
    (∀ b p, render { s with isLoading := b, partialQuestions := p } = render s) ∧
    (renderQuiz s = true ↔ s.questions.length = 4) := by
  refine ⟨?_, ?_, fun b p => rfl, ?_⟩
  · by_cases h : s.questions.length = 4 <;> simp [render, h]
  · intro h; simp [render, h]
  · rw [renderQuiz_eq]; simp

/-- C7 witness: a state holding four validated questions renders the quiz
view (with the fallback title, none being stored). -/
theorem quiz_view_iff_four_witness :
    render { initialState with questions := List.replicate 4 (some sampleDraft) } =
      View.quiz "Quiz" (List.replicate 4 (some sampleDraft)) :=
  (quiz_view_iff_four
      { initialState with questions := List.replicate 4 (some sampleDraft) }).1.mpr
    (by decide)

/-- C9: whenever the submit control is not disabled (staged files
non-empty), the first encoded file exists — the `encodedFiles[0].name`
access of the submit handler is in bounds and yields the first staged
file's record. -/
theorem first_encoded_in_bounds (s : AppState) (enc : FileItem → String)
    (h : submitDisabled s = false) :
    ((encodeFiles enc s.files)[0]?).isSome = true ∧
    (encodeFiles enc s.files)[0]? =
      (s.files[0]?).map
        (fun f => { name := f.name, type := f.type, data := enc f }) := by
  have hne : s.files ≠ [] := by
    intro heq
    simp [submitDisabled, heq] at h
  obtain ⟨f, fs, hf⟩ : ∃ f fs, s.files = f :: fs := by
    cases hfs : s.files with
    | nil => exact absurd hfs hne
    | cons f fs => exact ⟨f, fs, rfl⟩
  rw [hf]
  constructor <;> simp [encodeFiles]

/-- C9 witness: with one staged PDF the first encoded entry exists. -/
theorem first_encoded_in_bounds_witness :
    ((encodeFiles (fun _ => "data:application/pdf;base64,AAAA")
        ({ initialState with files := [pdfFile] } : AppState).files)[0]?).isSome =
      true :=
  (first_encoded_in_bounds { initialState with files := [pdfFile] }
      (fun _ => "data:application/pdf;base64,AAAA") (by decide)).1

/-- C10: while the completed-quiz view is rendered with no stored title the
displayed title is the fallback "Quiz"; once the title request resolves,
the stored title is displayed instead. -/
theorem quiz_title_fallback (s : AppState) (h : s.questions.length = 4) :
    (s.title = none → render s = View.quiz "Quiz" s.questions) ∧
    (∀ t, s.title = some t → render s = View.quiz t s.questions) ∧
    (∀ t, render (step s (.titleResolved t)).1 = View.quiz t s.questions) := by
  refine ⟨?_, ?_, ?_⟩
  · intro ht; simp [render, h, ht]
  · intro t ht; simp [render, h, ht]
  · intro t; simp [render, step, h]

/-- C10 witness: four validated questions and no stored title render the
quiz view titled "Quiz"; resolving the title to "My Quiz" switches it. -/
theorem quiz_title_fallback_witness :
    render { initialState with questions := List.replicate 4 (some sampleDraft) } =
      View.quiz "Quiz" (List.replicate 4 (some sampleDraft)) ∧
    render (step { initialState with questions := List.replicate 4 (some sampleDraft) }
        (.titleResolved "My Quiz")).1 =
      View.quiz "My Quiz" (List.replicate 4 (some sampleDraft)) := by
  have h := quiz_title_fallback
    { initialState with questions := List.replicate 4 (some sampleDraft) } (by decide)
  exact ⟨h.1 rfl, h.2.2 "My Quiz"⟩

/-- Invariant of reachable states: while a stream is active the validated
question state cannot have length 4 (the quiz view and an active stream
are mutually exclusive). -/
theorem reachable_loading_no_quiz (s : AppState) (h : Reachable s) :
    s.isLoading = true → s.questions.length ≠ 4 := by
  induction h with
  | init => intro h'; simp [initialState] at h'
  | next s e hs henabled ih =>
    cases e with
    | select isSafari sel =>
      simp only [step]
      split
      · exact ih
      · exact ih
    | dragOver => exact ih
    | dragLeave => exact ih
    | submit =>
      intro _
      simp only [enabled, Bool.and_eq_true, Bool.not_eq_true'] at henabled
      rw [renderQuiz_eq] at henabled
      simpa using henabled.1
    | emit l => exact ih
    | finish object => intro h'; simp [step] at h'
    | error => intro h'; simp [step] at h'
    | clear => intro _; simp [step]
    | titleResolved t => exact ih

/-- C8 counterexample: at the end of a reachable happy-path session the
clear action does not restore the whole session state to its initial
values — the stored title "My Quiz" persists — refuting "all session state
restored to its initial values". -/
theorem clearPDF_title_persists_counterexample :
    Reachable completedState ∧
    renderQuiz completedState = true ∧
    (step completedState Event.clear).1 ≠ initialState ∧
    (step completedState Event.clear).1.title = some "My Quiz" :=
  ⟨reachable_run completedEvents initialState Reachable.init (by decide),
    by decide, by decide, by decide⟩

/-- C8 amended: from the completed-quiz view, the clear action discards the
validated question set and the staged files — restoring those two (and only
those two) to their initial values, the stored title persisting — and
returns to the upload view; among the events enabled in that view, clear is
the only one whose step leaves the completed-quiz view. -/
theorem clearPDF_only_exit (s : AppState) (hr : Reachable s)
    (hq : renderQuiz s = true) :
    (step s Event.clear).1.files = initialState.files ∧
    (step s Event.clear).1.questions = initialState.questions ∧
    (step s Event.clear).1.title = s.title ∧
    renderQuiz (step s Event.clear).1 = false ∧
    enabled s Event.clear = true ∧
    (∀ e, enabled s e = true → renderQuiz (step s e).1 = false →
      e = Event.clear) := by
  have hload : s.isLoading = false := by
    by_cases hl : s.isLoading = true
    · rw [renderQuiz_eq] at hq
      exact absurd (by simpa using hq) (reachable_loading_no_quiz s hr hl)
    · simpa using hl
  refine ⟨rfl, rfl, rfl, ?_, ?_, ?_⟩
  · rw [renderQuiz_eq]; rfl
  · simp [enabled, hq]
  · intro e he hre
    cases e with
    | select isSafari sel => simp [enabled, hq] at he
    | dragOver => simp [enabled, hq] at he
    | dragLeave => simp [enabled, hq] at he
    | submit => simp [enabled, hq] at he
    | emit l => simp [enabled, hload] at he
    | finish object => simp [enabled, hload] at he
    | error => simp [enabled, hload] at he
    | clear => rfl
    | titleResolved t =>
      rw [renderQuiz_eq] at hre hq
      exact absurd hre (by simpa using hq)

/-- C8 witness: the amended theorem applied at the end of the happy-path
session: clear empties the validated question set. -/
theorem clearPDF_only_exit_witness :
    (step completedState Event.clear).1.questions = initialState.questions :=
  (clearPDF_only_exit completedState
      (reachable_run completedEvents initialState Reachable.init (by decide))
      (by decide)).2.1

end PDFQuiz
